import Mathlib

/-!
# Verification of the serial-monitor acquisition pipeline

A shallow embedding of the core of the `serial-monitor-csi` repository:
the data aggregation loop (`main_thread` and `split` in `src/main.rs`)
and the connection / I/O layer (`get_device`, `disconnected`,
`perform_writes`, `perform_reads` in `src/serial.rs`), together with
proofs of the behavioural properties stated in the specification.

Rust `Vec` becomes `List`, `f32`/`f64` values become an explicit value
type (`F32`) respectively `Rat`; the rounding of IEEE arithmetic is not
modelled because no property below depends on the numeric value of a
sample, only on how many tokens parse and on list lengths and contents
being preserved.  Channel receives become `Option` arguments to a
per-iteration step function; I/O side effects (logging, the `sync_tx`
notification, the snapshot write) carry no dataset state and are
omitted.
-/

set_option autoImplicit false

namespace SerialMonitor

/-- Direction of one exchanged unit.
Modelled from the spec: `data.rs` is not among the sources; the spec's
Event record has direction `Sent | Received` (named `Send`/`Receive` at
the use sites in `serial.rs`). -/
inductive SerialDirection where
  | Send
  | Receive
deriving DecidableEq

/-- One exchanged unit (`Packet` in `data.rs`).
Modelled from the spec: `data.rs` is not among the sources; the fields
are exactly those constructed in `serial.rs` (`relative_time`,
`absolute_time`, `direction`, `payload`) and read in `main.rs`.
`f64` millisecond timestamps are modelled as `Rat`. -/
structure Packet where
  relative_time : Rat
  absolute_time : Rat
  direction : SerialDirection
  payload : String
deriving DecidableEq

/-- Exact (unnormalized) rational value of a float literal, kept as a
numerator/denominator pair so that concrete evaluation never needs a
gcd.  IEEE rounding is not modelled; no claim depends on the numeric
value of a sample. -/
structure Qv where
  num : Int
  den : Nat
deriving DecidableEq

/-- The value of a parsed `f32` token.  Finite values carry their exact
literal value, infinities and NaN are distinguished constructors so
that `"inf"`/`"nan"` tokens count as successful parses, as they do for
Rust's `str::parse::<f32>`. -/
inductive F32 where
  | num (val : Qv)
  | inf (negative : Bool)
  | nan
deriving DecidableEq

/-! ## The tokenizer `split` (main.rs lines 40-50) -/

/-- ASCII decimal digit test (`char::is_ascii_digit`). -/
def isAsciiDigit (c : Char) : Bool := '0' ≤ c ∧ c ≤ '9'

/-- Numeric value of a digit string. -/
def digitsToNat (ds : List Char) : Nat :=
  ds.foldl (fun a c => 10 * a + (c.toNat - '0'.toNat)) 0

/-- Take the maximal leading run of digits, returning it and the rest. -/
def takeDigits (l : List Char) : List Char × List Char :=
  (l.takeWhile isAsciiDigit, l.dropWhile isAsciiDigit)

/-- ASCII lower-casing, used for the case-insensitive `inf`/`nan`
keywords of Rust's float grammar. -/
def charToLower (c : Char) : Char :=
  if 'A' ≤ c ∧ c ≤ 'Z' then Char.ofNat (c.toNat + 32) else c

/-- Whitespace as trimmed by `str::trim`.  Only the ASCII whitespace
characters are modelled (the Unicode `White_Space` set minus these does
not occur in serial telemetry and no claim depends on it). -/
def isRustWhitespace (c : Char) : Bool :=
  c = ' ' ∨ c = '\t' ∨ c = '\n' ∨ c = '\r' ∨ c = '\x0b' ∨ c = '\x0c'

/-- `str::trim`: drop leading and trailing whitespace. -/
def trimChars (l : List Char) : List Char :=
  ((l.dropWhile isRustWhitespace).reverse.dropWhile isRustWhitespace).reverse

/-- Assemble the value of a finite float literal
`sign? intDs '.' fracDs ('e' e)?` from its parts: the digit string is
the numerator over `10 ^ fracDs.length`, scaled by the exponent. -/
def qOfParts (neg : Bool) (intDs fracDs : List Char) (e : Int) : Qv :=
  let mantNum : Int := (digitsToNat (intDs ++ fracDs) : Int)
  let mantDen : Nat := 10 ^ fracDs.length
  let scaled : Qv :=
    if 0 ≤ e then ⟨mantNum * (10 ^ e.toNat : Nat), mantDen⟩
    else ⟨mantNum, mantDen * 10 ^ (-e).toNat⟩
  if neg then ⟨-scaled.num, scaled.den⟩ else scaled

/-- Parse the optional exponent suffix `('e'|'E') sign? digits` of the
Rust float grammar; `some e` when the remainder is a well-formed
(possibly absent) exponent consuming all input, `none` otherwise. -/
def parseExpPart (l : List Char) : Option Int :=
  match l with
  | [] => some 0
  | c :: rest =>
    if c = 'e' ∨ c = 'E' then
      let signRest : Int × List Char :=
        match rest with
        | '+' :: r => (1, r)
        | '-' :: r => (-1, r)
        | r => (1, r)
      let ds := takeDigits signRest.2
      if ds.1 = [] ∨ ds.2 ≠ [] then none
      else some (signRest.1 * (digitsToNat ds.1 : Int))
    else none

/-- Model of Rust's `str::parse::<f32>` on a trimmed token: the grammar
`sign? ( 'inf' | 'infinity' | 'nan' | number )` with
`number ::= digits ('.' digits?)? exp? | '.' digits exp?`, keywords
case-insensitive.  Returns `none` exactly when the token is rejected. -/
def parse_f32 (l : List Char) : Option F32 :=
  let signRest : Bool × List Char :=
    match l with
    | '+' :: r => (false, r)
    | '-' :: r => (true, r)
    | r => (false, r)
  let neg := signRest.1
  let rest := signRest.2
  let low := rest.map charToLower
  if low = ['i', 'n', 'f'] ∨ low = ['i', 'n', 'f', 'i', 'n', 'i', 't', 'y'] then
    some (.inf neg)
  else if low = ['n', 'a', 'n'] then
    some .nan
  else
    let ints := takeDigits rest
    let fracRest : List Char × List Char :=
      match ints.2 with
      | '.' :: r => takeDigits r
      | r => ([], r)
    if ints.1 = [] ∧ fracRest.1 = [] then none
    else
      match parseExpPart fracRest.2 with
      | some e => some (.num (qOfParts neg ints.1 fracRest.1 e))
      | none => none

/-- `str::split` on a single-character pattern: every occurrence of `c`
separates two (possibly empty) pieces.  `acc` is the reversed current
piece. -/
def splitOnCharAux (c : Char) (acc : List Char) : List Char → List (List Char)
  | [] => [acc.reverse]
  | x :: xs =>
    if x = c then acc.reverse :: splitOnCharAux c [] xs
    else splitOnCharAux c (x :: acc) xs

/-- `str::split(c)` as a list-of-chars function. -/
def splitOnChar (c : Char) (l : List Char) : List (List Char) :=
  splitOnCharAux c [] l

/-- Embedding of `split` (main.rs lines 40-50): split the payload on
`':'`, extend with the `','`-splits of every group, trim each token and
keep the tokens that parse as `f32` (parse failures are silently
dropped, exactly the `flat_map(parse)` of the source). -/
def split (payload : String) : List F32 :=
  let split_data := (splitOnChar ':' payload.toList).flatMap (fun s => splitOnChar ',' s)
  (split_data.map trimChars).filterMap parse_f32

/-! ## The aggregated dataset and the `main_thread` step (main.rs lines 88-235) -/

/-- The authoritative aggregation state (`DataContainer` in `data.rs`).
Modelled from the spec: `data.rs` is not among the sources; the fields
are exactly those read and written by `main_thread` in `main.rs`
(`time`, `absolute_time`, `dataset`, `raw_traffic`, `loaded_from_file`)
and by the rendering code in `gui.rs`. -/
structure DataContainer where
  time : List Rat
  absolute_time : List Rat
  dataset : List (List F32)
  raw_traffic : List Packet
  loaded_from_file : Bool
deriving DecidableEq

/-- Modelled from the spec: `DataContainer::default()` lives in the
missing `data.rs`.  Per spec §8 ("after `clear`, the Aggregated Dataset
has zero-length time axis and zero columns, and the malformed-frame
counter is zero" — `clear` assigns exactly `DataContainer::default()`)
and §4.4 step 2 ("if no current format epoch exists"), the default
dataset has zero columns and every axis and log empty, with the
file-origin flag off. -/
def DataContainer.default : DataContainer :=
  { time := [], absolute_time := [], dataset := [], raw_traffic := [], loaded_from_file := false }

/-- The aggregator's whole per-loop mutable state: the dataset plus the
`failed_format_counter` local of `main_thread`. -/
structure AggState where
  data : DataContainer
  failed_format_counter : Nat
deriving DecidableEq

/-- `main_thread`'s initial state (main.rs lines 98-99). -/
def aggInit : AggState :=
  { data := DataContainer.default, failed_format_counter := 0 }

/-- Embedding of the packet-processing block of `main_thread`
(main.rs lines 111-146), executed for one packet received from
`raw_data_rx`: mark the dataset live, and for a non-empty payload
append the packet to the raw-traffic log, tokenize it with `split`,
then either (re)create the format epoch, append a width-matching
frame (with the time/column corruption check), or count the frame as
malformed.  The `sync_tx` notification is a side effect with no state
and is omitted; `data.dataset[0]` in the corruption check is evaluated
under `dataset ≠ []`, so `headD []` is the exact value the source
indexes. -/
def handle_packet (st : AggState) (packet : Packet) : AggState :=
  let data0 := { st.data with loaded_from_file := false }
  if packet.payload = "" then
    { st with data := data0 }
  else
    let data1 := { data0 with raw_traffic := data0.raw_traffic ++ [packet] }
    let split_data := split packet.payload
    if data1.dataset = [] ∨ st.failed_format_counter > 10 then
      -- resetting dataset
      let dataR := { data1 with dataset := List.replicate (max split_data.length 1) ([] : List F32) }
      { data := dataR, failed_format_counter := 0 }
    else if split_data.length = data1.dataset.length then
      -- appending data; the source zeroes the counter inside the
      -- per-column loop, hence only when at least one column exists
      let counter1 := if data1.dataset = [] then st.failed_format_counter else 0
      let dataset2 := List.zipWith (fun set v => set ++ [v]) data1.dataset split_data
      let data2 := { data1 with
                     dataset := dataset2
                     time := data1.time ++ [packet.relative_time]
                     absolute_time := data1.absolute_time ++ [packet.absolute_time] }
      if data2.time.length ≠ (data2.dataset.headD []).length then
        -- resetting dataset
        let data3 := { data2 with
                       time := ([] : List Rat)
                       dataset := List.replicate (max split_data.length 1) ([] : List F32) }
        { data := data3, failed_format_counter := counter1 }
      else
        { data := data2, failed_format_counter := counter1 }
    else
      -- not same length
      { data := data1, failed_format_counter := st.failed_format_counter + 1 }

/-- Embedding of the clear-command block of `main_thread`
(main.rs lines 104-109): a `true` on `clear_rx` replaces the dataset
with `DataContainer::default()` and zeroes the counter. -/
def handle_clear (st : AggState) (cl : Bool) : AggState :=
  if cl then { data := DataContainer.default, failed_format_counter := 0 } else st

/-- Fold `handle_packet` over a sequence of delivered packets. -/
def processPackets (st : AggState) (ps : List Packet) : AggState :=
  ps.foldl handle_packet st

/-- One load request as seen by `main_thread` (main.rs lines 179-214).
`extension` is `fp.extension()` of the transmitted path.  `openResult`
is modelled from the spec: `open_from_csv` lives in the missing
`io.rs`; per spec §4.5 a successful load replaces the dataset with the
file's contents (marked file-origin) and a failed load reports an
error without keeping a partial dataset, so the outcome is carried as
`some loadedData` or `none`. -/
structure LoadRequest where
  extension : Option String
  openResult : Option DataContainer

/-- The full per-iteration mutable state of `main_thread`: the
aggregation state plus the `file_opened` local. -/
structure ThreadState where
  st : AggState
  file_opened : Bool

/-- Embedding of one iteration of the `main_thread` loop
(main.rs lines 103-234), with the three polled channels as `Option`
arguments: first the clear command (lines 104-109), then — only when
no file is opened — one raw-data packet (lines 110-178), then the load
request (lines 179-214), which sets `file_opened` for the `"csv"`
extension and a successful open and resets it to `false` in every
other case, including the `else` branch taken when no load request is
pending (lines 212-214).  The snapshot write and the save command
handling touch no aggregation state and are omitted. -/
def main_iteration (ts : ThreadState) (clearMsg : Option Bool)
    (packetMsg : Option Packet) (loadMsg : Option LoadRequest) : ThreadState :=
  let st0 :=
    match clearMsg with
    | some cl => handle_clear ts.st cl
    | none => ts.st
  let st1 :=
    if ts.file_opened = false then
      match packetMsg with
      | some packet => handle_packet st0 packet
      | none => st0
    else st0
  match loadMsg with
  | some req =>
    match req.extension with
    | some ext =>
      if ext = "csv" then
        match req.openResult with
        | some d => { st := { st1 with data := d }, file_opened := true }
        | none => { st := st1, file_opened := false }
      else { st := st1, file_opened := false }
    | none => { st := st1, file_opened := false }
  | none => { st := st1, file_opened := false }

/-! ## The connection manager and I/O worker (serial.rs) -/

/-- `serialport::DataBits`. -/
inductive DataBits where
  | Five
  | Six
  | Seven
  | Eight
deriving DecidableEq

/-- `serialport::FlowControl`. -/
inductive FlowControl where
  | NoFlow
  | Software
  | Hardware
deriving DecidableEq

/-- `serialport::Parity`. -/
inductive Parity where
  | NoParity
  | Odd
  | Even
deriving DecidableEq

/-- `serialport::StopBits`. -/
inductive StopBits where
  | One
  | Two
deriving DecidableEq

/-- The endpoint descriptor (`Device` in serial.rs lines 70-79); the
read timeout is carried in milliseconds. -/
structure Device where
  name : String
  baud_rate : Nat
  data_bits : DataBits
  flow_control : FlowControl
  parity : Parity
  stop_bits : StopBits
  timeout_ms : Nat
deriving DecidableEq

/-- `Device::default()` (serial.rs lines 81-93): empty name, 9600 baud,
eight data bits, no flow control, no parity, one stop bit, zero
timeout. -/
def Device.default : Device :=
  { name := "", baud_rate := 9600, data_bits := .Eight, flow_control := .NoFlow
    parity := .NoParity, stop_bits := .One, timeout_ms := 0 }

/-- One pass of the `get_device` resolution loop (serial.rs lines
293-320) over a freshly enumerated `devices` list: if the reconnection
memory's name is present, adopt its name and baud rate into the shared
descriptor and return the remembered device; otherwise return the
configured descriptor when its name is present; otherwise `none`
(the source sleeps and re-enumerates).  The result pairs the returned
device with the shared descriptor's new value. -/
def get_device_resolve (devices : List String) (lockDevice : Device)
    (last_connected_device : Device) : Option (Device × Device) :=
  if devices.contains last_connected_device.name then
    some (last_connected_device,
      { lockDevice with
        name := last_connected_device.name
        baud_rate := last_connected_device.baud_rate })
  else if devices.contains lockDevice.name then
    some (lockDevice, lockDevice)
  else
    none

/-- Embedding of `disconnected` (serial.rs lines 323-348): given the
device captured at connect time, the freshly enumerated list, the
shared descriptor and the reconnection memory, returns
`(report, shared descriptor after, reconnection memory after)`.
Explicit disconnect (the shared name no longer equals the session's
name) is checked first and resets the memory to the default device;
otherwise a name missing from the enumerated list clears the shared
name and remembers the session's device. -/
def disconnected (device : Device) (devices : List String)
    (lockDevice : Device) (last_connected_device : Device) :
    Bool × Device × Device :=
  -- disconnection by button press
  if device.name ≠ lockDevice.name then
    (true, lockDevice, Device.default)
  -- other types of disconnection (e.g. unplugging, power down)
  else if ¬ devices.contains device.name then
    (true, { lockDevice with name := "" }, device)
  else
    (false, lockDevice, last_connected_device)

/-- A control-line operation performed on the port (DTR/RTS level
writes of the reset sequence). -/
inductive LineOp where
  | dtr (level : Bool)
  | rts (level : Bool)
deriving DecidableEq

/-- UTF-8 encoding of one scalar value, byte values as `Nat`
(`str::as_bytes` of the source). -/
def utf8EncodeChar (c : Char) : List Nat :=
  let n := c.toNat
  if n < 0x80 then [n]
  else if n < 0x800 then [0xC0 + n / 64, 0x80 + n % 64]
  else if n < 0x10000 then [0xE0 + n / 4096, 0x80 + (n / 64) % 64, 0x80 + n % 64]
  else [0xF0 + n / 262144, 0x80 + (n / 4096) % 64, 0x80 + (n / 64) % 64, 0x80 + n % 64]

/-- The bytes of a command string as written to the wire. -/
def strBytes (s : String) : List Nat :=
  s.toList.flatMap utf8EncodeChar

/-- Everything one `perform_writes` cycle does to the outside world:
control-line toggles, payload bytes written to the port, and the
`Sent` packet pushed onto the event channel (if any). -/
structure WriteOutcome where
  line_ops : List LineOp
  bytes : List Nat
  sent_packet : Option Packet
deriving DecidableEq

/-- Embedding of `perform_writes` for one received command
(serial.rs lines 350-413).  `write_ok` stands for the success of the
port write (`write_all`/`serial_write`); on failure the source logs
and returns without emitting a packet, and the transmitted bytes are
modelled as none.  The two timestamps of the emitted packet are taken
as parameters.  The reset sentinel performs only the DTR/RTS toggle
sequence and returns before writing any payload; the interrupt
sentinel writes the single byte `0x03` and emits a synthetic packet
with payload `"Ctrl+R (0x03)"`; every other command is written as its
UTF-8 bytes and echoed verbatim as a `Sent` packet. -/
def perform_writes (cmd : String) (write_ok : Bool) (rel abs : Rat) : WriteOutcome :=
  if cmd = "__RESET__\r\n" then
    { line_ops := [.dtr false, .rts true, .dtr false, .rts true, .rts false]
      bytes := []
      sent_packet := none }
  else if cmd = "__CTRLC__\r\n" then
    if write_ok then
      { line_ops := []
        bytes := [0x03]
        sent_packet := some ⟨rel, abs, .Send, "Ctrl+R (0x03)"⟩ }
    else
      { line_ops := [], bytes := [], sent_packet := none }
  else
    if write_ok then
      { line_ops := []
        bytes := strBytes cmd
        sent_packet := some ⟨rel, abs, .Send, cmd⟩ }
    else
      { line_ops := [], bytes := [], sent_packet := none }

/-- Substring containment, `str::contains` for a two-character pattern
`ab` (both delimiters of the source, `"\r\n"` and `"\0\0"`, have two
characters): the pattern occurs at some position. -/
def contains2 (a b : Char) : List Char → Bool
  | x :: y :: xs => (x = a ∧ y = b) || contains2 a b (y :: xs)
  | _ => false

/-- `str::split` for a two-character pattern `ab`: leftmost,
non-overlapping matches separate (possibly empty) pieces. -/
def splitOn2 (a b : Char) : List Char → List (List Char)
  | [] => [[]]
  | [x] => [[x]]
  | x :: y :: xs =>
    if x = a ∧ y = b then
      [] :: splitOn2 a b xs
    else
      match splitOn2 a b (y :: xs) with
      | [] => [[x]]
      | piece :: rest => (x :: piece) :: rest

/-- `str::split_terminator` for a two-character pattern: like `split`,
but the trailing empty piece (produced when the string ends with the
pattern) is omitted. -/
def split_terminator2 (a b : Char) (l : List Char) : List (List Char) :=
  let parts := splitOn2 a b l
  match parts.getLast? with
  | some [] => parts.dropLast
  | _ => parts

/-- The line-decoding step of `perform_reads` (serial.rs lines
415-440): the buffer read in one cycle is split with
`split_terminator` on `"\r\n"` when the buffer contains `"\r\n"`, and
on `"\0\0"` otherwise.  Total: a read error never reaches this step
(timeouts are silently skipped, other errors are logged and the cycle
ends), and decoding itself cannot fail. -/
def perform_reads_lines (buf : String) : List String :=
  if contains2 '\r' '\n' buf.toList then
    (split_terminator2 '\r' '\n' buf.toList).map (fun cs => String.mk cs)
  else
    (split_terminator2 '\x00' '\x00' buf.toList).map (fun cs => String.mk cs)

/-- The packets `perform_reads` sends on the event channel for one
successfully read buffer: one `Receive` packet per decoded line, in
order.  Each packet's timestamps are sampled at emission time in the
source; they are taken here as shared parameters since no claim
depends on them. -/
def perform_reads (buf : String) (rel abs : Rat) : List Packet :=
  (perform_reads_lines buf).map (fun s => ⟨rel, abs, .Receive, s⟩)

/-! ## The stable-epoch invariant -/

/-- A stable format epoch of width `w` with `k` appended rows: `w`
columns of `k` samples each, `k` entries on both time axes, and a
zeroed malformed-frame counter. -/
def EpochStable (st : AggState) (w k : Nat) : Prop :=
  st.data.dataset.length = w ∧
  (∀ col ∈ st.data.dataset, col.length = k) ∧
  st.data.time.length = k ∧
  st.data.absolute_time.length = k ∧
  st.failed_format_counter = 0

instance (st : AggState) (w k : Nat) : Decidable (EpochStable st w k) := by
  unfold EpochStable
  infer_instance

end SerialMonitor


namespace SerialMonitor

/-! ## Step lemmas for `handle_packet` -/

/-- An empty payload only clears the file-origin flag. -/
theorem handle_packet_empty (st : AggState) (p : Packet) (hp : p.payload = "") :
    handle_packet st p = { st with data := { st.data with loaded_from_file := false } } := by
  simp [handle_packet, hp]

/-- The epoch-reset branch: an empty dataset or an exceeded counter
recreates the columns (empty, at the new width), leaving both time
axes untouched and zeroing the counter. -/
theorem handle_packet_forced (st : AggState) (p : Packet) (hp : ¬ p.payload = "")
    (h : st.data.dataset = [] ∨ st.failed_format_counter > 10) :
    handle_packet st p =
      { data := { st.data with
                  loaded_from_file := false
                  raw_traffic := st.data.raw_traffic ++ [p]
                  dataset := List.replicate (max (split p.payload).length 1) [] }
        failed_format_counter := 0 } := by
  simp only [handle_packet, if_neg hp]
  rw [if_pos (by simpa using h)]

/-- The malformed-frame branch: a width mismatch below the threshold
only appends to the raw log and increments the counter. -/
theorem handle_packet_malformed (st : AggState) (p : Packet) (hp : ¬ p.payload = "")
    (hds : st.data.dataset ≠ []) (hc : st.failed_format_counter ≤ 10)
    (hlen : (split p.payload).length ≠ st.data.dataset.length) :
    handle_packet st p =
      { data := { st.data with
                  loaded_from_file := false
                  raw_traffic := st.data.raw_traffic ++ [p] }
        failed_format_counter := st.failed_format_counter + 1 } := by
  have hc' : ¬ st.failed_format_counter > 10 := by omega
  simp only [handle_packet, if_neg hp]
  rw [if_neg (by simpa using And.intro hds hc'), if_neg (by simpa using hlen)]

/-- The append branch without corruption: a width-matching frame adds
one sample per column and one entry per time axis and zeroes the
counter, provided the time axis and the first column agreed
beforehand. -/
theorem handle_packet_append (st : AggState) (p : Packet) (hp : ¬ p.payload = "")
    (hds : st.data.dataset ≠ []) (hc : st.failed_format_counter ≤ 10)
    (hlen : (split p.payload).length = st.data.dataset.length)
    (htime : st.data.time.length = (st.data.dataset.headD []).length) :
    handle_packet st p =
      { data := { st.data with
                  loaded_from_file := false
                  raw_traffic := st.data.raw_traffic ++ [p]
                  dataset := List.zipWith (fun set v => set ++ [v]) st.data.dataset (split p.payload)
                  time := st.data.time ++ [p.relative_time]
                  absolute_time := st.data.absolute_time ++ [p.absolute_time] }
        failed_format_counter := 0 } := by
  have hc' : ¬ st.failed_format_counter > 10 := by omega
  obtain ⟨d, ds, hdeq⟩ : ∃ d ds, st.data.dataset = d :: ds := by
    cases h : st.data.dataset with
    | nil => exact absurd h hds
    | cons d ds => exact ⟨d, ds, rfl⟩
  obtain ⟨v, vs, hveq⟩ : ∃ v vs, split p.payload = v :: vs := by
    cases h : split p.payload with
    | nil => rw [h, hdeq] at hlen; simp at hlen
    | cons v vs => exact ⟨v, vs, rfl⟩
  have hlen2 : vs.length = ds.length := by
    have h := hlen
    rw [hveq, hdeq] at h
    simpa using h
  have htime2 : st.data.time.length = d.length := by simpa [hdeq] using htime
  simp [handle_packet, hp, hdeq, hveq, hc', htime2, hlen2]

/-- The append branch with corruption: when the time axis disagreed
with the first column before the frame, appending trips the
consistency check, which clears the time axis and recreates the
columns empty — but appends to the absolute-time axis and keeps it. -/
theorem handle_packet_corrupt (st : AggState) (p : Packet) (hp : ¬ p.payload = "")
    (hds : st.data.dataset ≠ []) (hc : st.failed_format_counter ≤ 10)
    (hlen : (split p.payload).length = st.data.dataset.length)
    (htime : st.data.time.length ≠ (st.data.dataset.headD []).length) :
    handle_packet st p =
      { data := { st.data with
                  loaded_from_file := false
                  raw_traffic := st.data.raw_traffic ++ [p]
                  dataset := List.replicate (max (split p.payload).length 1) []
                  time := []
                  absolute_time := st.data.absolute_time ++ [p.absolute_time] }
        failed_format_counter := 0 } := by
  have hc' : ¬ st.failed_format_counter > 10 := by omega
  obtain ⟨d, ds, hdeq⟩ : ∃ d ds, st.data.dataset = d :: ds := by
    cases h : st.data.dataset with
    | nil => exact absurd h hds
    | cons d ds => exact ⟨d, ds, rfl⟩
  obtain ⟨v, vs, hveq⟩ : ∃ v vs, split p.payload = v :: vs := by
    cases h : split p.payload with
    | nil => rw [h, hdeq] at hlen; simp at hlen
    | cons v vs => exact ⟨v, vs, rfl⟩
  have hlen2 : vs.length = ds.length := by
    have h := hlen
    rw [hveq, hdeq] at h
    simpa using h
  have htime2 : st.data.time.length ≠ d.length := by simpa [hdeq] using htime
  have hcor : st.data.time.length + 1 ≠ d.length + 1 := by omega
  simp [handle_packet, hp, hdeq, hveq, hc', hcor, hlen2]

end SerialMonitor

namespace SerialMonitor

/-! ## Runs of packets -/

theorem processPackets_nil (st : AggState) : processPackets st [] = st := rfl

theorem processPackets_cons (st : AggState) (p : Packet) (ps : List Packet) :
    processPackets st (p :: ps) = processPackets (handle_packet st p) ps := rfl

/-- Appending one sample per column preserves a uniform column length,
incremented by one. -/
theorem zipWith_snoc_length (k : Nat) :
    ∀ (ds : List (List F32)) (vs : List F32),
      (∀ col ∈ ds, col.length = k) →
      ∀ col ∈ List.zipWith (fun set v => set ++ [v]) ds vs, col.length = k + 1 := by
  intro ds
  induction ds with
  | nil => intro vs _ col hcol; simp at hcol
  | cons d ds ih =>
    intro vs hds col hcol
    cases vs with
    | nil => simp at hcol
    | cons v vs =>
      simp only [List.zipWith_cons_cons] at hcol
      rcases List.mem_cons.1 hcol with h | h
      · subst h; simp [hds d (by simp)]
      · exact ih vs (fun c hc => hds c (by simp [hc])) col h

/-- One width-matching frame on a stable epoch keeps it stable with one
more row. -/
theorem handle_packet_stable_step (st : AggState) (p : Packet) (w k : Nat)
    (hw : 1 ≤ w) (hst : EpochStable st w k)
    (hp : ¬ p.payload = "") (hlen : (split p.payload).length = w) :
    EpochStable (handle_packet st p) w (k + 1) := by
  obtain ⟨hds, hcols, htime, habs, hctr⟩ := hst
  have hds' : st.data.dataset ≠ [] := by
    intro h
    rw [h] at hds
    simp at hds
    omega
  have hc : st.failed_format_counter ≤ 10 := by omega
  have hlen' : (split p.payload).length = st.data.dataset.length := by rw [hlen, hds]
  have hhead : (st.data.dataset.headD []).length = k := by
    cases h : st.data.dataset with
    | nil => exact absurd h hds'
    | cons d ds =>
      have := hcols d (by rw [h]; simp)
      simpa using this
  rw [handle_packet_append st p hp hds' hc hlen' (by rw [htime, hhead])]
  refine ⟨?_, ?_, ?_, ?_, rfl⟩
  · simp [hds, hlen]
  · exact zipWith_snoc_length k st.data.dataset (split p.payload) hcols
  · simpa using htime
  · simpa using habs

/-- A run of width-matching frames on a stable epoch keeps it stable,
adding one row per frame. -/
theorem processPackets_stable (w : Nat) (hw : 1 ≤ w) (ps : List Packet) :
    ∀ (st : AggState) (k : Nat), EpochStable st w k →
      (∀ p ∈ ps, ¬ p.payload = "" ∧ (split p.payload).length = w) →
      EpochStable (processPackets st ps) w (k + ps.length) := by
  induction ps with
  | nil => intro st k hst _; simpa using hst
  | cons p ps ih =>
    intro st k hst hall
    have hstep := handle_packet_stable_step st p w k hw hst
      (hall p (by simp)).1 (hall p (by simp)).2
    have := ih (handle_packet st p) (k + 1) hstep
      (fun q hq => hall q (by simp [hq]))
    rw [processPackets_cons]
    have harith : k + 1 + ps.length = k + (p :: ps).length := by simp; omega
    rwa [harith] at this

/-- A run of malformed-width frames below the tolerance threshold only
extends the raw log and counts: dataset, both time axes and the column
data are untouched. -/
theorem malformed_run (w : Nat) (hw : 1 ≤ w) (ms : List Packet) :
    ∀ st : AggState, st.data.dataset.length = w →
      st.failed_format_counter + ms.length ≤ 11 →
      (∀ m ∈ ms, ¬ m.payload = "" ∧ (split m.payload).length ≠ w) →
      (processPackets st ms).data.dataset = st.data.dataset ∧
      (processPackets st ms).data.time = st.data.time ∧
      (processPackets st ms).data.absolute_time = st.data.absolute_time ∧
      (processPackets st ms).data.raw_traffic = st.data.raw_traffic ++ ms ∧
      (processPackets st ms).failed_format_counter = st.failed_format_counter + ms.length := by
  induction ms with
  | nil => intro st _ _ _; simp [processPackets_nil]
  | cons m ms ih =>
    intro st hds hbound hall
    have hds' : st.data.dataset ≠ [] := by
      intro h
      rw [h] at hds
      simp at hds
      omega
    have hc : st.failed_format_counter ≤ 10 := by
      have := hbound
      simp only [List.length_cons] at this
      omega
    have hlen : (split m.payload).length ≠ st.data.dataset.length := by
      rw [hds]; exact (hall m (by simp)).2
    have hstep := handle_packet_malformed st m (hall m (by simp)).1 hds' hc hlen
    rw [processPackets_cons, hstep]
    have hrest := ih { data := { st.data with
                                 loaded_from_file := false
                                 raw_traffic := st.data.raw_traffic ++ [m] }
                       failed_format_counter := st.failed_format_counter + 1 }
      (by simpa using hds)
      (by simp only [List.length_cons] at hbound ⊢; omega)
      (fun q hq => hall q (by simp [hq]))
    obtain ⟨h1, h2, h3, h4, h5⟩ := hrest
    refine ⟨by simpa using h1, by simpa using h2, by simpa using h3, ?_, ?_⟩
    · rw [h4]
      simp
    · rw [h5]
      simp only [List.length_cons]
      omega

/-- Every processed packet with a non-empty payload is appended to the
raw-traffic log; an empty payload appends nothing; no branch ever
removes entries. -/
theorem handle_packet_raw (st : AggState) (p : Packet) :
    (handle_packet st p).data.raw_traffic =
      st.data.raw_traffic ++ (if p.payload = "" then [] else [p]) := by
  by_cases hp : p.payload = ""
  · rw [handle_packet_empty st p hp]
    simp [hp]
  · simp only [handle_packet, if_neg hp, if_neg]
    split
    · simp [hp]
    · split
      · split
        · simp [hp]
        · simp [hp]
      · simp [hp]

/-- Over a run, the raw log grows by exactly the packets with non-empty
payload, in order. -/
theorem processPackets_raw (ps : List Packet) :
    ∀ st : AggState, (processPackets st ps).data.raw_traffic =
      st.data.raw_traffic ++ ps.filter (fun p => !(p.payload == "")) := by
  induction ps with
  | nil => intro st; simp [processPackets_nil]
  | cons p ps ih =>
    intro st
    rw [processPackets_cons, ih, handle_packet_raw]
    by_cases hp : p.payload = ""
    · simp [hp]
    · simp [hp]

end SerialMonitor

namespace SerialMonitor

/-- `headD` of a freshly reset column set is the empty column. -/
theorem headD_replicate_max (n : Nat) :
    (List.replicate (max n 1) ([] : List F32)).headD [] = [] := by
  have h : max n 1 = (max n 1 - 1) + 1 := by omega
  rw [h, List.replicate_succ]
  rfl

/-! ## C8 helper lemmas: no delimiter occurrence -/

/-- Without any occurrence of the two-character pattern, `split` yields
the whole string as its single piece. -/
theorem splitOn2_no_occ (a b : Char) :
    ∀ l : List Char, contains2 a b l = false → splitOn2 a b l = [l] := by
  intro l
  induction l with
  | nil => intro _; rfl
  | cons x xs ih =>
    intro h
    cases xs with
    | nil => rfl
    | cons y ys =>
      have h1 : ¬ (x = a ∧ y = b) := by
        intro hab
        simp [contains2, hab.1, hab.2] at h
      have h2 : contains2 a b (y :: ys) = false := by
        cases hcc : contains2 a b (y :: ys) with
        | false => rfl
        | true => simp [contains2, hcc] at h
      rw [show splitOn2 a b (x :: y :: ys)
            = match splitOn2 a b (y :: ys) with
              | [] => [[x]]
              | piece :: rest => (x :: piece) :: rest from by
        simp [splitOn2, if_neg h1]]
      rw [ih h2]

/-- Without any occurrence of the pattern, `split_terminator` yields
nothing for the empty buffer and the whole buffer otherwise. -/
theorem split_terminator2_no_occ (a b : Char) (l : List Char)
    (h : contains2 a b l = false) :
    split_terminator2 a b l = if l = [] then [] else [l] := by
  have hs := splitOn2_no_occ a b l h
  cases l with
  | nil => simp [split_terminator2, hs]
  | cons c cs => simp [split_terminator2, hs]

end SerialMonitor

namespace SerialMonitor

/-! ## Claim theorems -/

/-- C1 counterexample: the claim as frozen fails already at `n = 1`,
`w = 1`.  From an empty aggregator, one Received event whose payload
`"1"` tokenizes to exactly one numeric token yields a dataset whose
time axis has length 0, not 1, and whose single column has length 0,
not 1: the first event of an epoch only creates the columns, its
tokens are dropped. -/
theorem c1_counterexample :
    (split "1").length = 1 ∧
    ¬ ((processPackets aggInit [⟨0, 0, .Receive, "1"⟩]).data.time.length = 1) ∧
    ¬ (∀ col ∈ (processPackets aggInit [⟨0, 0, .Receive, "1"⟩]).data.dataset,
        col.length = 1) := by
  refine ⟨by decide, by decide, by decide⟩

/-- C1 (amended): width-epoch stability, off by one.  For every
connection session whose aggregator starts from an empty dataset, if
every Received event's non-empty payload tokenizes to exactly `w ≥ 1`
numeric tokens, then after the first such event the dataset has
exactly `w` columns, and after `n` such events every column has length
`n - 1` and the time axis has length `n - 1` (the first event only
establishes the epoch; its tokens are not appended). -/
theorem c1_width_epoch_stability (w : Nat) (ps : List Packet)
    (hw : 1 ≤ w) (hne : ps ≠ [])
    (hall : ∀ p ∈ ps, ¬ p.payload = "" ∧ (split p.payload).length = w) :
    (processPackets aggInit ps).data.dataset.length = w ∧
    (∀ col ∈ (processPackets aggInit ps).data.dataset, col.length = ps.length - 1) ∧
    (processPackets aggInit ps).data.time.length = ps.length - 1 := by
  cases ps with
  | nil => exact absurd rfl hne
  | cons p ps =>
    have hp := hall p (by simp)
    have hstable : EpochStable (handle_packet aggInit p) w 0 := by
      rw [handle_packet_forced aggInit p hp.1 (Or.inl rfl)]
      refine ⟨?_, ?_, rfl, rfl, rfl⟩
      · simp [hp.2]
        omega
      · intro col hcol
        simp at hcol
        rw [hcol]
        rfl
    have hrun := processPackets_stable w hw ps (handle_packet aggInit p) 0 hstable
      (fun q hq => hall q (by simp [hq]))
    obtain ⟨a1, a2, a3, a4, a5⟩ := hrun
    rw [processPackets_cons]
    refine ⟨a1, ?_, ?_⟩
    · simpa using a2
    · simpa using a3

/-- C1 witness: two events of width 1 leave one column of length 1 and
a time axis of length 1. -/
theorem c1_witness :
    (processPackets aggInit
      [⟨0, 0, .Receive, "1"⟩, ⟨1, 1, .Receive, "2"⟩]).data.dataset.length = 1 ∧
    (∀ col ∈ (processPackets aggInit
      [⟨0, 0, .Receive, "1"⟩, ⟨1, 1, .Receive, "2"⟩]).data.dataset, col.length = 1) ∧
    (processPackets aggInit
      [⟨0, 0, .Receive, "1"⟩, ⟨1, 1, .Receive, "2"⟩]).data.time.length = 1 := by
  have h := c1_width_epoch_stability 1
    [⟨0, 0, .Receive, "1"⟩, ⟨1, 1, .Receive, "2"⟩] (by decide) (by decide) (by decide)
  simpa using h

/-- C2 counterexample: the 11th consecutive malformed-width frame does
not force an epoch reset.  After establishing a width-1 epoch holding
the sample `2` and injecting eleven frames of width 2, the dataset
still holds its single non-empty column and the counter is 11: no
reset (which would have recreated the columns empty and zeroed the
counter) has happened. -/
theorem c2_counterexample :
    (processPackets aggInit
      ([⟨0, 0, .Receive, "1"⟩, ⟨1, 1, .Receive, "2"⟩] ++
        List.replicate 11 ⟨2, 2, .Receive, "3,4"⟩)).data.dataset
      = [[F32.num ⟨2, 1⟩]] ∧
    (processPackets aggInit
      ([⟨0, 0, .Receive, "1"⟩, ⟨1, 1, .Receive, "2"⟩] ++
        List.replicate 11 ⟨2, 2, .Receive, "3,4"⟩)).failed_format_counter = 11 ∧
    ¬ ((processPackets aggInit
      ([⟨0, 0, .Receive, "1"⟩, ⟨1, 1, .Receive, "2"⟩] ++
        List.replicate 11 ⟨2, 2, .Receive, "3,4"⟩)).data.dataset
      = List.replicate (processPackets aggInit
          ([⟨0, 0, .Receive, "1"⟩, ⟨1, 1, .Receive, "2"⟩] ++
            List.replicate 11 ⟨2, 2, .Receive, "3,4"⟩)).data.dataset.length []) := by
  refine ⟨by decide, by decide, by decide⟩

/-- C2 (amended): tolerance threshold, shifted by one frame.  Given a
stable format epoch of width `w` with data already appended, 10
consecutive malformed-width frames leave the dataset at width `w` with
the counter at 10 and no numeric data removed; the 11th consecutive
malformed-width frame still leaves the dataset untouched (counter 11);
the reset happens on the next frame processed after the counter has
exceeded the threshold — the 12th frame, whatever its width —
re-deriving the column count from that frame. -/
theorem c2_tolerance_threshold (st : AggState) (w k : Nat)
    (hw : 1 ≤ w) (hst : EpochStable st w k)
    (ms : List Packet) (hlen10 : ms.length = 10)
    (hm : ∀ m ∈ ms, ¬ m.payload = "" ∧ (split m.payload).length ≠ w)
    (m11 : Packet) (hp11 : ¬ m11.payload = "") (hw11 : (split m11.payload).length ≠ w)
    (p12 : Packet) (hp12 : ¬ p12.payload = "") :
    (processPackets st ms).data.dataset = st.data.dataset ∧
    (processPackets st ms).data.time = st.data.time ∧
    (processPackets st ms).failed_format_counter = 10 ∧
    (handle_packet (processPackets st ms) m11).data.dataset = st.data.dataset ∧
    (handle_packet (processPackets st ms) m11).failed_format_counter = 11 ∧
    (handle_packet (handle_packet (processPackets st ms) m11) p12).data.dataset =
      List.replicate (max (split p12.payload).length 1) [] ∧
    (handle_packet (handle_packet (processPackets st ms) m11) p12).failed_format_counter
      = 0 := by
  obtain ⟨hds, hcols, htime, habs, hctr⟩ := hst
  have hrun := malformed_run w hw ms st hds (by omega) hm
  obtain ⟨h1, h2, h3, h4, h5⟩ := hrun
  have hc10 : (processPackets st ms).failed_format_counter = 10 := by
    rw [h5, hctr, hlen10]
  have hne : (processPackets st ms).data.dataset ≠ [] := by
    rw [h1]
    intro h
    rw [h] at hds
    simp at hds
    omega
  have hlen11 : (split m11.payload).length ≠ (processPackets st ms).data.dataset.length := by
    rw [h1, hds]
    exact hw11
  have h11 := handle_packet_malformed (processPackets st ms) m11 hp11 hne
    (by rw [hc10]) hlen11
  have hc11 : (handle_packet (processPackets st ms) m11).failed_format_counter = 11 := by
    rw [h11]
    simp [hc10]
  have hds11 : (handle_packet (processPackets st ms) m11).data.dataset = st.data.dataset := by
    rw [h11]
    simpa using h1
  have h12 := handle_packet_forced (handle_packet (processPackets st ms) m11) p12 hp12
    (Or.inr (by rw [hc11]; omega))
  refine ⟨h1, h2, hc10, hds11, hc11, ?_, ?_⟩
  · rw [h12]
  · rw [h12]

/-- C2 witness: a concrete stable width-1 epoch with one appended row,
ten malformed frames, an 11th malformed frame and a 12th frame of
width 1. -/
theorem c2_witness :
    (processPackets ⟨⟨[1], [1], [[F32.num ⟨2, 1⟩]], [], false⟩, 0⟩
      (List.replicate 10 ⟨2, 2, .Receive, "3,4"⟩)).data.dataset = [[F32.num ⟨2, 1⟩]] ∧
    (processPackets ⟨⟨[1], [1], [[F32.num ⟨2, 1⟩]], [], false⟩, 0⟩
      (List.replicate 10 ⟨2, 2, .Receive, "3,4"⟩)).failed_format_counter = 10 ∧
    (handle_packet (processPackets ⟨⟨[1], [1], [[F32.num ⟨2, 1⟩]], [], false⟩, 0⟩
      (List.replicate 10 ⟨2, 2, .Receive, "3,4"⟩)) ⟨3, 3, .Receive, "3,4"⟩).failed_format_counter = 11 ∧
    (handle_packet (handle_packet (processPackets ⟨⟨[1], [1], [[F32.num ⟨2, 1⟩]], [], false⟩, 0⟩
      (List.replicate 10 ⟨2, 2, .Receive, "3,4"⟩)) ⟨3, 3, .Receive, "3,4"⟩)
      ⟨4, 4, .Receive, "5"⟩).data.dataset = [[]] := by
  have h := c2_tolerance_threshold ⟨⟨[1], [1], [[F32.num ⟨2, 1⟩]], [], false⟩, 0⟩ 1 1
    (by decide) (by decide)
    (List.replicate 10 ⟨2, 2, .Receive, "3,4"⟩) (by decide) (by decide)
    ⟨3, 3, .Receive, "3,4"⟩ (by decide) (by decide)
    ⟨4, 4, .Receive, "5"⟩ (by decide)
  exact ⟨h.1, h.2.2.1, h.2.2.2.2.1, by simpa using h.2.2.2.2.2.1⟩

/-- C3 counterexample: a packet with an empty payload is not appended
to the raw-event log, so after processing one packet the log has grown
by 0 entries, not 1. -/
theorem c3_counterexample :
    ¬ ((processPackets aggInit [⟨0, 0, .Send, ""⟩]).data.raw_traffic.length = 1) := by
  decide

/-- C3 (amended): raw-event log completeness for non-empty payloads.
Every packet delivered to the aggregator with a non-empty payload —
Sent or Received, whether or not it parses numerically — is appended
to `raw_traffic` in order, and nothing is ever removed: after a
sequence of packets the log has grown by exactly the packets with
non-empty payloads. -/
theorem c3_raw_event_log (st : AggState) (ps : List Packet) :
    (processPackets st ps).data.raw_traffic =
      st.data.raw_traffic ++ ps.filter (fun p => !(p.payload == "")) :=
  processPackets_raw ps st

/-- C4: the code contradicts the file-origin suspension.  A successful
`"csv"` load marks the dataset file-origin and sets `file_opened`, but
the very next loop iteration that polls `load_rx` without a pending
load request runs the `else` branch of main.rs lines 212-214 and
resets `file_opened` to `false`; the packet after that is ingested
into the dataset (raw log grows, a column sample is appended, the
file-origin mark is cleared) although neither a close-file nor a clear
command was issued. -/
theorem c4_file_origin_bug :
    (let ts1 := main_iteration ⟨aggInit, false⟩ none none
        (some ⟨some "csv", some ⟨[0], [0], [[F32.num ⟨5, 1⟩]], [], true⟩⟩);
     let ts2 := main_iteration ts1 none none none;
     let ts3 := main_iteration ts2 none (some ⟨1, 1, .Receive, "7"⟩) none;
     ts1.file_opened = true ∧
     ts1.st.data.loaded_from_file = true ∧
     ts2.file_opened = false ∧
     ts2.st.data = ts1.st.data ∧
     ts3.st.data.loaded_from_file = false ∧
     ts3.st.data.raw_traffic.length = 1 ∧
     ts3.st.data.dataset = [[F32.num ⟨5, 1⟩, F32.num ⟨7, 1⟩]]) := by
  decide

/-- C5: idempotent clear.  For every prior aggregator state, processing
a clear command carrying `true` resets the dataset to the default —
zero-length time axis, zero columns, empty raw log — and zeroes the
malformed-frame counter; and a clear message leaves `file_opened`, the
only other state of the aggregation loop, exactly as an iteration
without a clear message would (the connection lives in the serial
thread, which never receives clear commands). -/
theorem c5_idempotent_clear :
    (∀ st : AggState,
      (handle_clear st true).data.time = [] ∧
      (handle_clear st true).data.dataset = [] ∧
      (handle_clear st true).data.raw_traffic = [] ∧
      (handle_clear st true).failed_format_counter = 0) ∧
    (∀ (ts : ThreadState) (pm : Option Packet) (lm : Option LoadRequest),
      (main_iteration ts (some true) pm lm).file_opened =
        (main_iteration ts none pm lm).file_opened) := by
  constructor
  · intro st
    exact ⟨rfl, rfl, rfl, rfl⟩
  · intro ts pm lm
    cases lm with
    | none => rfl
    | some req =>
      obtain ⟨ext, res⟩ := req
      cases ext with
      | none => rfl
      | some e =>
        by_cases he : e = "csv"
        · cases res with
          | none => simp [main_iteration, he]
          | some d => simp [main_iteration, he]
        · simp [main_iteration, he]

end SerialMonitor

namespace SerialMonitor

/-- C6: reconnection preference.  Whenever the live enumerated endpoint
list contains the reconnection-memory endpoint's name, the
device-resolution step returns the remembered device — in particular,
with both the memory endpoint and the (differently named) configured
endpoint present, the memory endpoint wins; consequently the
configured endpoint can only be returned when the memory's name is
absent from the live list. -/
theorem c6_reconnection_preference :
    (∀ (devices : List String) (memory configured : Device),
      devices.contains memory.name = true →
      devices.contains configured.name = true →
      memory.name ≠ configured.name →
      (get_device_resolve devices configured memory).map Prod.fst = some memory) ∧
    (∀ (devices : List String) (configured memory : Device),
      devices.contains memory.name = true →
      (get_device_resolve devices configured memory).map Prod.fst = some memory) := by
  have key : ∀ (devices : List String) (configured memory : Device),
      devices.contains memory.name = true →
      (get_device_resolve devices configured memory).map Prod.fst = some memory := by
    intro devices configured memory hmem
    simp only [get_device_resolve]
    rw [if_pos hmem]
    rfl
  exact ⟨fun d m c hm _ _ => key d c m hm, key⟩

/-- C6 witness: with endpoints `{A, B}` enumerated, memory `A` and
configured `B`, resolution returns `A`. -/
theorem c6_witness :
    (get_device_resolve ["A", "B"]
      { Device.default with name := "B" }
      { Device.default with name := "A" }).map Prod.fst =
      some { Device.default with name := "A" } :=
  c6_reconnection_preference.1 ["A", "B"]
    { Device.default with name := "A" } { Device.default with name := "B" }
    (by decide) (by decide) (by decide)

/-- C7: disconnect policy.  If the session's device name still matches
the shared descriptor but has disappeared from the enumerated list,
the step clears the shared name, stores the session's device as
reconnection memory and reports disconnected; if instead the shared
name no longer equals the name captured at connect time, the step
resets the reconnection memory to the default (empty) device, leaves
the shared descriptor alone, and reports disconnected. -/
theorem c7_disconnect_policy :
    (∀ (device : Device) (devices : List String) (lockDevice last : Device),
      device.name = lockDevice.name →
      devices.contains device.name = false →
      disconnected device devices lockDevice last =
        (true, { lockDevice with name := "" }, device)) ∧
    (∀ (device : Device) (devices : List String) (lockDevice last : Device),
      device.name ≠ lockDevice.name →
      disconnected device devices lockDevice last =
        (true, lockDevice, Device.default)) := by
  constructor
  · intro device devices lockDevice last heq hmem
    have hmem' : lockDevice.name ∉ devices := by
      rw [← heq]
      simpa using hmem
    simp [disconnected, heq, hmem']
  · intro device devices lockDevice last hne
    simp [disconnected, hne]

/-- C7 witness: a physical disappearance (name still configured, list
empty) and an explicit disconnect (shared name changed) at concrete
devices. -/
theorem c7_witness :
    disconnected { Device.default with name := "A" } []
      { Device.default with name := "A" } Device.default =
      (true, { Device.default with name := "" }, { Device.default with name := "A" }) ∧
    disconnected { Device.default with name := "A" } ["A"]
      { Device.default with name := "B" } Device.default =
      (true, { Device.default with name := "B" }, Device.default) := by
  constructor
  · exact c7_disconnect_policy.1 _ _ _ _ (by decide) (by decide)
  · exact c7_disconnect_policy.2 _ _ _ _ (by decide)

/-- C8: decode delimiter fallback.  The decoder splits the buffer read
in one cycle on `"\r\n"` when the buffer contains `"\r\n"` and on
`"\0\0"` otherwise; each resulting line becomes exactly one Received
packet with that line as payload; and a buffer containing neither
delimiter decodes to at most the whole buffer as a single unit —
decoding is a total function, never an error. -/
theorem c8_decode_delimiter_fallback :
    (∀ buf : String, contains2 '\r' '\n' buf.toList = true →
      perform_reads_lines buf =
        (split_terminator2 '\r' '\n' buf.toList).map (fun cs => String.mk cs)) ∧
    (∀ buf : String, contains2 '\r' '\n' buf.toList = false →
      perform_reads_lines buf =
        (split_terminator2 '\x00' '\x00' buf.toList).map (fun cs => String.mk cs)) ∧
    (∀ (buf : String) (rel abs : Rat),
      (perform_reads buf rel abs).map Packet.payload = perform_reads_lines buf ∧
      ∀ p ∈ perform_reads buf rel abs, p.direction = SerialDirection.Receive) ∧
    (∀ buf : String, contains2 '\r' '\n' buf.toList = false →
      contains2 '\x00' '\x00' buf.toList = false →
      perform_reads_lines buf = [] ∨ perform_reads_lines buf = [buf]) := by
  refine ⟨?_, ?_, ?_, ?_⟩
  · intro buf h
    have h' : contains2 '\r' '\n' buf.data = true := h
    simp [perform_reads_lines, h']
  · intro buf h
    have h' : contains2 '\r' '\n' buf.data = false := h
    simp [perform_reads_lines, h']
  · intro buf rel abs
    constructor
    · have hcomp : (Packet.payload ∘ fun s =>
          ({ relative_time := rel, absolute_time := abs,
             direction := SerialDirection.Receive, payload := s } : Packet)) = id := rfl
      simp only [perform_reads, List.map_map, hcomp, List.map_id]
    · intro p hp
      simp [perform_reads] at hp
      obtain ⟨s, hs, rfl⟩ := hp
      rfl
  · intro buf h1 h2
    have h1' : contains2 '\r' '\n' buf.data = false := h1
    have hterm : split_terminator2 '\x00' '\x00' buf.data =
        if buf.data = [] then [] else [buf.data] :=
      split_terminator2_no_occ '\x00' '\x00' buf.toList h2
    have hmk : String.mk buf.data = buf := rfl
    have hbase : perform_reads_lines buf =
        (if buf.data = [] then [] else [buf.data]).map (fun cs => String.mk cs) := by
      simp [perform_reads_lines, h1', hterm]
    by_cases hb : buf.data = []
    · left
      rw [hbase, if_pos hb]
      rfl
    · right
      rw [hbase, if_neg hb]
      simp [hmk]

/-- C8 witness: the three delimiter regimes and the no-delimiter case
at concrete buffers. -/
theorem c8_witness :
    perform_reads_lines "a\r\nb\r\n" =
      (split_terminator2 '\r' '\n' ("a\r\nb\r\n" : String).toList).map (fun cs => String.mk cs) ∧
    perform_reads_lines "a\x00\x00b" =
      (split_terminator2 '\x00' '\x00' ("a\x00\x00b" : String).toList).map (fun cs => String.mk cs) ∧
    (perform_reads "abc" 0 0).map Packet.payload = perform_reads_lines "abc" ∧
    (perform_reads_lines "abc" = [] ∨ perform_reads_lines "abc" = ["abc"]) :=
  ⟨c8_decode_delimiter_fallback.1 "a\r\nb\r\n" (by decide),
   c8_decode_delimiter_fallback.2.1 "a\x00\x00b" (by decide),
   (c8_decode_delimiter_fallback.2.2.1 "abc" 0 0).1,
   c8_decode_delimiter_fallback.2.2.2 "abc" (by decide) (by decide)⟩

/-- C9: sentinel exclusion.  The reset sentinel transmits no payload
bytes and emits no Sent packet at all (hence none whose payload equals
the sentinel), regardless of the port-write outcome; the interrupt
sentinel, on a successful write, transmits exactly the single byte
`0x03` and emits one Sent packet whose payload is the descriptive
synthetic string `"Ctrl+R (0x03)"`, which is neither the sentinel nor
the raw byte. -/
theorem c9_sentinel_exclusion :
    (∀ (write_ok : Bool) (rel abs : Rat),
      (perform_writes "__RESET__\r\n" write_ok rel abs).bytes = [] ∧
      (perform_writes "__RESET__\r\n" write_ok rel abs).sent_packet = none) ∧
    (∀ rel abs : Rat,
      (perform_writes "__CTRLC__\r\n" true rel abs).bytes = [0x03] ∧
      (perform_writes "__CTRLC__\r\n" true rel abs).sent_packet =
        some ⟨rel, abs, .Send, "Ctrl+R (0x03)"⟩ ∧
      ("Ctrl+R (0x03)" : String) ≠ "__CTRLC__\r\n" ∧
      ("Ctrl+R (0x03)" : String) ≠ "\x03") :=
  ⟨fun _ _ _ => ⟨rfl, rfl⟩, fun _ _ => ⟨rfl, rfl, by decide, by decide⟩⟩

/-- C10: a forced epoch reset with a non-empty time axis recreates the
columns empty but leaves the time and absolute-time axes uncleared;
the next width-matching Received event then makes the time-axis length
(old length + 1) differ from column 0's length (1), tripping the
corruption reset that clears the time axis and recreates the columns
empty again — so the first successfully parsed frame after a forced
epoch reset never persists in the dataset. -/
theorem c10_forced_reset_nonpersistence (st : AggState) (p1 p2 : Packet)
    (hctr : st.failed_format_counter > 10)
    (htime : st.data.time ≠ [])
    (hp1 : ¬ p1.payload = "") (hp2 : ¬ p2.payload = "")
    (hmatch : (split p2.payload).length = max (split p1.payload).length 1) :
    (handle_packet st p1).data.dataset =
      List.replicate (max (split p1.payload).length 1) [] ∧
    (handle_packet st p1).data.time = st.data.time ∧
    (handle_packet st p1).data.absolute_time = st.data.absolute_time ∧
    (handle_packet st p1).failed_format_counter = 0 ∧
    (handle_packet (handle_packet st p1) p2).data.time = [] ∧
    (handle_packet (handle_packet st p1) p2).data.dataset =
      List.replicate (max (split p2.payload).length 1) [] ∧
    (∀ col ∈ (handle_packet (handle_packet st p1) p2).data.dataset, col = []) := by
  have h1 := handle_packet_forced st p1 hp1 (Or.inr hctr)
  have hds1 : (handle_packet st p1).data.dataset
      = List.replicate (max (split p1.payload).length 1) [] := by rw [h1]
  have htime1 : (handle_packet st p1).data.time = st.data.time := by rw [h1]
  have habs1 : (handle_packet st p1).data.absolute_time = st.data.absolute_time := by
    rw [h1]
  have hc1 : (handle_packet st p1).failed_format_counter = 0 := by rw [h1]
  have hne1 : (handle_packet st p1).data.dataset ≠ [] := by
    rw [hds1]
    intro h
    have hl := congrArg List.length h
    simp at hl
  have hlen2 : (split p2.payload).length = (handle_packet st p1).data.dataset.length := by
    rw [hds1]
    simpa using hmatch
  have hmismatch : (handle_packet st p1).data.time.length
      ≠ ((handle_packet st p1).data.dataset.headD []).length := by
    rw [htime1, hds1, headD_replicate_max]
    simpa using htime
  have h2 := handle_packet_corrupt (handle_packet st p1) p2 hp2 hne1
    (by rw [hc1]; omega) hlen2 hmismatch
  refine ⟨hds1, htime1, habs1, hc1, ?_, ?_, ?_⟩
  · rw [h2]
  · rw [h2]
  · intro col hcol
    rw [h2] at hcol
    simp at hcol
    exact hcol

/-- C10 witness: a width-1 epoch in forced-reset state (counter 11)
with one row of history, then two width-1 frames. -/
theorem c10_witness :
    (handle_packet ⟨⟨[0], [0], [[F32.num ⟨1, 1⟩]], [], false⟩, 11⟩
      ⟨1, 1, .Receive, "5"⟩).data.time = [0] ∧
    (handle_packet (handle_packet ⟨⟨[0], [0], [[F32.num ⟨1, 1⟩]], [], false⟩, 11⟩
      ⟨1, 1, .Receive, "5"⟩) ⟨2, 2, .Receive, "6"⟩).data.time = [] ∧
    (handle_packet (handle_packet ⟨⟨[0], [0], [[F32.num ⟨1, 1⟩]], [], false⟩, 11⟩
      ⟨1, 1, .Receive, "5"⟩) ⟨2, 2, .Receive, "6"⟩).data.dataset = [[]] := by
  have h := c10_forced_reset_nonpersistence
    ⟨⟨[0], [0], [[F32.num ⟨1, 1⟩]], [], false⟩, 11⟩
    ⟨1, 1, .Receive, "5"⟩ ⟨2, 2, .Receive, "6"⟩
    (by decide) (by decide) (by decide) (by decide) (by decide)
  exact ⟨h.2.1, h.2.2.2.2.1, by simpa using h.2.2.2.2.2.1⟩

end SerialMonitor
